import Mathlib

/-!
Shallow embedding of the Hatom lending-protocol core (interest-rate model,
money-market accrual, redeem, seize and repay, USH-market borrow-rate
governance and effective-borrow accounting, controller risk profile,
collateral-factor state machine, liquidation sizing, rewards batches).

All `BigUint` values are embedded as `ℕ`; a `BigUint` subtraction that could
underflow in the source aborts the transaction, so every such subtraction is
either guarded by an explicit comparison here or performed under a
previously-checked bound.  Fallible endpoints are embedded as `Option`-valued
functions where `none` models a reverted transaction.
-/

namespace Hatom

/-- The WAD unit, `10^18`. -/
def WAD : ℕ := 1000000000000000000

/-- The BPS unit. -/
def BPS : ℕ := 10000

/-! ## Interest-rate model (`interest-rate-model/src/contract.rs`) -/

/-- Stored parameters of the two-slope interest rate model. -/
structure InterestRateModel where
  base_rate : ℕ
  first_slope : ℕ
  last_slope : ℕ
  optimal_utilization : ℕ
  max_borrow_rate : ℕ
  deriving Repr, DecidableEq

/-- `get_utilization` from `interest-rate-model/src/contract.rs`. -/
def get_utilization (m : InterestRateModel) (borrows liquidity : ℕ) : ℕ :=
  if borrows = 0 then 0
  else if liquidity = 0 then
    (m.last_slope - m.first_slope) * m.optimal_utilization / m.last_slope
      + (m.max_borrow_rate - m.base_rate) * WAD / m.last_slope + 2
  else borrows * WAD / liquidity

/-- `get_borrow_rate` from `interest-rate-model/src/contract.rs`. -/
def get_borrow_rate (m : InterestRateModel) (borrows liquidity : ℕ) : ℕ :=
  if borrows = 0 then m.base_rate
  else if liquidity = 0 then m.max_borrow_rate
  else
    let u := get_utilization m borrows liquidity
    if u ≤ m.optimal_utilization then
      m.first_slope * u / WAD + m.base_rate
    else
      let r1 := m.first_slope * m.optimal_utilization / WAD + m.base_rate
      let r := r1 + m.last_slope * (u - m.optimal_utilization) / WAD
      if r ≥ m.max_borrow_rate then m.max_borrow_rate else r

/-! ## Money market accrual (`money-market/src/common.rs`) -/

/-- The money-market storage fields read and written by `accrue_interest`. -/
structure MoneyMarketState where
  cash : ℕ
  total_borrows : ℕ
  total_reserves : ℕ
  staking_rewards : ℕ
  historical_staking_rewards : ℕ
  revenue : ℕ
  borrow_index : ℕ
  accrual_timestamp : ℕ
  reserve_factor : ℕ
  stake_factor : ℕ
  deriving Repr, DecidableEq

/-- `get_liquidity`: `cash + total_borrows - total_reserves`. -/
def get_liquidity (s : MoneyMarketState) : ℕ :=
  s.cash + s.total_borrows - s.total_reserves

/-- `accrue_interest` from `money-market/src/common.rs`, parameterized by the
interest-rate model's `get_borrow_rate` as the function `rate_of`
(borrows, liquidity) ↦ per-second borrow rate, and by the current block
timestamp `t`. -/
def accrue_interest (rate_of : ℕ → ℕ → ℕ) (t : ℕ) (s : MoneyMarketState) :
    MoneyMarketState :=
  if t = s.accrual_timestamp then s
  else
    let borrow_rate := rate_of s.total_borrows (get_liquidity s)
    let dt := t - s.accrual_timestamp
    let borrow_rate_dt := borrow_rate * dt
    let delta_borrows := borrow_rate_dt * s.total_borrows / WAD
    let delta_reserves := s.reserve_factor * delta_borrows / WAD
    let delta_rewards := s.stake_factor * delta_reserves / WAD
    { s with
      total_borrows := s.total_borrows + delta_borrows
      total_reserves := s.total_reserves + delta_reserves
      staking_rewards := s.staking_rewards + delta_rewards
      historical_staking_rewards := s.historical_staking_rewards + delta_rewards
      revenue := s.revenue + (delta_reserves - delta_rewards)
      borrow_index := borrow_rate_dt * s.borrow_index / WAD + s.borrow_index
      accrual_timestamp := t }

/-- Specification-side description of one accrual step: the updated state
written field by field from the claimed formulas (with `dt = t - t_prev` and
the borrow rate read on the stored borrows and liquidity). -/
def accrue_interest_result (rate_of : ℕ → ℕ → ℕ) (t : ℕ)
    (s : MoneyMarketState) : MoneyMarketState :=
  let borrow_rate := rate_of s.total_borrows (get_liquidity s)
  let dt := t - s.accrual_timestamp
  let delta_borrows := borrow_rate * dt * s.total_borrows / WAD
  let delta_reserves := s.reserve_factor * delta_borrows / WAD
  let delta_rewards := s.stake_factor * delta_reserves / WAD
  { s with
    total_borrows := s.total_borrows + delta_borrows
    total_reserves := s.total_reserves + delta_reserves
    staking_rewards := s.staking_rewards + delta_rewards
    historical_staking_rewards := s.historical_staking_rewards + delta_rewards
    revenue := s.revenue + (delta_reserves - delta_rewards)
    borrow_index := s.borrow_index + borrow_rate * dt * s.borrow_index / WAD
    accrual_timestamp := t }

/-- The scenario S1 market state: `cash = 1000e18`, `total_borrows = 500e18`,
no reserves, `reserve_factor = 0.1 WAD`, `stake_factor = 0.5 WAD`,
`borrow_index = 1 WAD`, last accrual at time 0. -/
def s1_state : MoneyMarketState where
  cash := 1000 * 10 ^ 18
  total_borrows := 500 * 10 ^ 18
  total_reserves := 0
  staking_rewards := 0
  historical_staking_rewards := 0
  revenue := 0
  borrow_index := WAD
  accrual_timestamp := 0
  reserve_factor := 10 ^ 17
  stake_factor := 5 * 10 ^ 17

/-- The scenario S1 interest-rate model: a constant per-second borrow rate of
`1e9`. -/
def s1_rate : ℕ → ℕ → ℕ := fun _ _ => 10 ^ 9

/-! ## Redeem (`money-market/src/redeem.rs` and conversion helpers of
`money-market/src/common.rs`).  The exchange rate `fx` is the market's stored
exchange rate in WAD; the conversions are pure in `fx`. -/

/-- `tokens_to_underlying_amount`: `fx * tokens / WAD`. -/
def tokens_to_underlying_amount (fx tokens : ℕ) : ℕ := fx * tokens / WAD

/-- `underlying_amount_to_tokens`: `underlying_amount * WAD / fx`. -/
def underlying_amount_to_tokens (fx underlying_amount : ℕ) : ℕ :=
  underlying_amount * WAD / fx

/-- `redeem_tokens`: the redeemer pays `tokens` share tokens and receives
`tokens * fx / WAD` underlying.  Returns `(underlying_sent, tokens_burned)`. -/
def redeem_tokens (fx tokens : ℕ) : ℕ × ℕ :=
  (tokens_to_underlying_amount fx tokens, tokens)

/-- `redeem_underlying_amount`: the redeemer pays `paid_tokens` share tokens
asking for `underlying_amount` underlying; the market burns
`underlying_amount * WAD / fx + 1` share tokens, reverts unless enough tokens
were paid, and refunds the rest.  Returns
`(underlying_sent, tokens_burned, tokens_refunded)`, or `none` on revert. -/
def redeem_underlying_amount (fx paid_tokens underlying_amount : ℕ) :
    Option (ℕ × ℕ × ℕ) :=
  let tokens := underlying_amount_to_tokens fx underlying_amount + 1
  if tokens = 0 then none
  else if paid_tokens < tokens then none
  else some (underlying_amount, tokens, paid_tokens - tokens)

/-! ## USH market borrow-rate governance
(`ush-money-market/src/governance.rs` and `commons.rs`). -/

/-- `SECONDS_PER_YEAR` from `ush-money-market/src/constants.rs`. -/
def SECONDS_PER_YEAR : ℕ := 31556926

/-- `MAX_INITIAL_BORROW_RATE = WAD / SECONDS_PER_YEAR`. -/
def MAX_INITIAL_BORROW_RATE : ℕ := WAD / SECONDS_PER_YEAR

/-- `BORROW_RATE_DELAY` (1 day). -/
def BORROW_RATE_DELAY : ℕ := 86400

/-- `MAX_BORROW_RATE_CHANGE` in bps (10%). -/
def MAX_BORROW_RATE_CHANGE : ℕ := 1000

/-- `is_borrow_rate_change_allowed` from `ush-money-market/src/commons.rs`:
the absolute change must not exceed `from_rate * 1000 / 10000`. -/
def is_borrow_rate_change_allowed (from_rate to_rate : ℕ) : Bool :=
  let max_borrow_rate_change := from_rate * MAX_BORROW_RATE_CHANGE / BPS
  let delta_borrow_rate :=
    if from_rate < to_rate then to_rate - from_rate else from_rate - to_rate
  delta_borrow_rate ≤ max_borrow_rate_change

/-- `set_borrow_apr` from `ush-money-market/src/governance.rs`, restricted to
its rate-update logic: given the current block `timestamp`, the stored borrow
rate (`none` when never set), the timestamp of the last rate update and the
requested APR, it returns the new `(borrow_rate, last_borrow_rate_update)` on
success and `none` when the transaction reverts. -/
def set_borrow_apr (timestamp : ℕ) (stored_rate : Option ℕ)
    (last_borrow_rate_update : ℕ) (borrow_apr : ℕ) : Option (ℕ × ℕ) :=
  let borrow_rate := borrow_apr / SECONDS_PER_YEAR
  if borrow_rate = 0 then none
  else
    match stored_rate with
    | none =>
        if borrow_rate ≤ MAX_INITIAL_BORROW_RATE then
          some (borrow_rate, timestamp)
        else none
    | some old_borrow_rate =>
        if borrow_rate = old_borrow_rate then none
        else if ¬ is_borrow_rate_change_allowed old_borrow_rate borrow_rate then
          none
        else if borrow_rate > old_borrow_rate ∧
            ¬ (timestamp - last_borrow_rate_update ≥ BORROW_RATE_DELAY) then
          none
        else some (borrow_rate, timestamp)

/-! ## Collateral-factor state machine (`controller/src/governance.rs`,
`controller/src/shared.rs`). -/

/-- `MAX_COLLATERAL_FACTOR` (0.9 WAD). -/
def MAX_COLLATERAL_FACTOR : ℕ := 900000000000000000

/-- `MAX_COLLATERAL_FACTOR_DECREASE` (0.1 WAD). -/
def MAX_COLLATERAL_FACTOR_DECREASE : ℕ := 100000000000000000

/-- `TIMELOCK_COLLATERAL_FACTOR_DECREASE` (1 day). -/
def TIMELOCK_COLLATERAL_FACTOR_DECREASE : ℕ := 86400

/-- The controller's per-market collateral-factor storage: the current
collateral factor, the USH-borrower collateral factor, and the optional
pending `(start_timestamp, next_cf, next_uf)` entry. -/
structure CollateralFactorsState where
  collateral_factor : ℕ
  ush_borrower_collateral_factor : ℕ
  next_collateral_factors : Option (ℕ × ℕ × ℕ)
  deriving Repr, DecidableEq

/-- `update_and_get_collateral_factors` from `controller/src/shared.rs`:
lazily promotes a pending entry whose start timestamp has been reached, and
returns the (possibly updated) factors together with the updated storage. -/
def update_and_get_collateral_factors (current_timestamp : ℕ)
    (s : CollateralFactorsState) : (ℕ × ℕ) × CollateralFactorsState :=
  match s.next_collateral_factors with
  | none => ((s.collateral_factor, s.ush_borrower_collateral_factor), s)
  | some (start_timestamp, next_cf, next_uf) =>
      if current_timestamp < start_timestamp then
        ((s.collateral_factor, s.ush_borrower_collateral_factor), s)
      else
        ((next_cf, next_uf),
         { collateral_factor := next_cf
           ush_borrower_collateral_factor := next_uf
           next_collateral_factors := none })

/-- `require_valid_collateral_factor_decrease` from `controller/src/shared.rs`
as a decidable check: a decrease must not go below
`old - min(MAX_COLLATERAL_FACTOR_DECREASE, old)`. -/
def valid_collateral_factor_decrease (new_ltv old_ltv : ℕ) : Bool :=
  if new_ltv ≥ old_ltv then true
  else
    let max_allowed_decrease := min MAX_COLLATERAL_FACTOR_DECREASE old_ltv
    let min_allowed_ltv := old_ltv - max_allowed_decrease
    new_ltv ≥ min_allowed_ltv

/-- `set_next_collateral_factors` from `controller/src/shared.rs`. -/
def set_next_collateral_factors (timestamp : ℕ) (next_cf next_uf : ℕ)
    (s : CollateralFactorsState) : CollateralFactorsState :=
  let apply_at := timestamp + TIMELOCK_COLLATERAL_FACTOR_DECREASE
  { s with next_collateral_factors := some (apply_at, next_cf, next_uf) }

/-- `set_collateral_factors` from `controller/src/governance.rs`, restricted
to the collateral-factor logic (admin, whitelist and oracle-liveness checks
are ambient).  Returns the updated storage, or `none` when the transaction
reverts. -/
def set_collateral_factors (timestamp : ℕ) (new_cf new_uf : ℕ)
    (s : CollateralFactorsState) : Option CollateralFactorsState :=
  if ¬ new_cf ≤ MAX_COLLATERAL_FACTOR then none
  else if ¬ new_cf ≥ new_uf then none
  else
    let updated := update_and_get_collateral_factors timestamp s
    let cf := updated.1.1
    let uf := updated.1.2
    let s1 := updated.2
    if new_cf < cf ∧ new_uf < uf then
      if ¬ valid_collateral_factor_decrease new_cf cf then none
      else if ¬ valid_collateral_factor_decrease new_uf uf then none
      else some (set_next_collateral_factors timestamp new_cf new_uf s1)
    else if new_cf < cf ∧ new_uf ≥ uf then
      if ¬ valid_collateral_factor_decrease new_cf cf then none
      else some (set_next_collateral_factors timestamp new_cf new_uf
        { s1 with ush_borrower_collateral_factor := new_uf })
    else if new_cf ≥ cf ∧ new_uf < uf then
      if ¬ valid_collateral_factor_decrease new_uf uf then none
      else some (set_next_collateral_factors timestamp new_cf new_uf
        { s1 with collateral_factor := new_cf })
    else
      some { collateral_factor := new_cf
             ush_borrower_collateral_factor := new_uf
             next_collateral_factors := none }

/-! ## Risk profile (`controller/src/risk_profile.rs`).  Market addresses are
embedded as natural numbers; the data the controller reads for each of the
account's markets (borrow snapshot, prices, factors, collateral tokens) is
bundled into one record per market. -/

/-- The outcome of a risk-profile simulation. -/
inductive RiskProfile where
  | Solvent (liquidity : ℕ)
  | RiskyOrInsolvent (shortfall : ℕ)
  deriving Repr, DecidableEq

/-- The data the controller reads for one of the account's markets during
`simulate_risk_profile`: the market address, the account borrow snapshot
`(underlying_owed_amount, fx)` from the money market, the updated collateral
factors, the oracle underlying price, and the account's collateral tokens. -/
structure AccountMarketData where
  money_market : ℕ
  underlying_owed_amount : ℕ
  fx : ℕ
  collateral_factor : ℕ
  ush_borrower_collateral_factor : ℕ
  underlying_price : ℕ
  account_collateral_tokens : ℕ
  deriving Repr, DecidableEq

/-- One market's contribution to `total_collateral` given the loan-to-value
`ltv` chosen for the account (the code's
`token_price_eff * collateral_tokens / WAD` with
`token_price_eff = ltv * (fx * underlying_price / WAD) / WAD`). -/
def collateral_contribution (ltv : ℕ) (d : AccountMarketData) : ℕ :=
  ltv * (d.fx * d.underlying_price / WAD) / WAD * d.account_collateral_tokens / WAD

/-- One market's contribution to `total_borrow`, including the redeem and
borrow perturbations when the market is `this_money_market`. -/
def borrow_contribution (ltv : ℕ) (this_money_market redeem_tokens borrow_amount : ℕ)
    (d : AccountMarketData) : ℕ :=
  d.underlying_price * d.underlying_owed_amount / WAD +
    (if d.money_market = this_money_market then
      ltv * (d.fx * d.underlying_price / WAD) / WAD * redeem_tokens / WAD +
        d.underlying_price * borrow_amount / WAD
     else 0)

/-- The `ush_borrower` flag of `simulate_risk_profile`: the account owes at
the USH market, or the simulated borrow is at the USH market. -/
def is_ush_borrower (ush_market : ℕ) (snapshots : List AccountMarketData)
    (this_money_market borrow_amount : ℕ) : Bool :=
  snapshots.any (fun d => 0 < d.underlying_owed_amount ∧ d.money_market = ush_market)
    || (0 < borrow_amount && this_money_market = ush_market)

/-- The `borrower` flag of `simulate_risk_profile`: the account owes at some
market, or the simulated borrow amount is positive. -/
def is_borrower (snapshots : List AccountMarketData) (borrow_amount : ℕ) : Bool :=
  snapshots.any (fun d => 0 < d.underlying_owed_amount) || 0 < borrow_amount

/-- The accumulation loop of `simulate_risk_profile`, folding
`(total_borrow, total_collateral)` over the account's market snapshots. -/
def risk_profile_loop (ush_borrower : Bool)
    (this_money_market redeem_tokens borrow_amount : ℕ)
    (acc : ℕ × ℕ) (snapshots : List AccountMarketData) : ℕ × ℕ :=
  snapshots.foldl (fun acc d =>
    let ltv := if ¬ ush_borrower then d.collateral_factor
               else d.ush_borrower_collateral_factor
    let token_price := d.fx * d.underlying_price / WAD
    let token_price_eff := ltv * token_price / WAD
    let total_collateral := acc.2 + token_price_eff * d.account_collateral_tokens / WAD
    let total_borrow := acc.1 + d.underlying_price * d.underlying_owed_amount / WAD
    let total_borrow :=
      if d.money_market = this_money_market then
        total_borrow + token_price_eff * redeem_tokens / WAD
          + d.underlying_price * borrow_amount / WAD
      else total_borrow
    (total_borrow, total_collateral)) acc

/-- `simulate_risk_profile` from `controller/src/risk_profile.rs`.  The USH
market observer address (`unwrap_or_default`) is passed as `ush_market`. -/
def simulate_risk_profile (ush_market : ℕ) (snapshots : List AccountMarketData)
    (this_money_market : ℕ) (redeem_tokens borrow_amount : ℕ) (lazy : Bool) :
    RiskProfile :=
  let borrower := is_borrower snapshots borrow_amount
  let ush_borrower := is_ush_borrower ush_market snapshots this_money_market borrow_amount
  if lazy && !borrower then RiskProfile.Solvent 0
  else
    let totals := risk_profile_loop ush_borrower this_money_market redeem_tokens
      borrow_amount (0, 0) snapshots
    let total_borrow := totals.1
    let total_collateral := totals.2
    if total_collateral ≥ total_borrow then
      RiskProfile.Solvent (total_collateral - total_borrow)
    else
      RiskProfile.RiskyOrInsolvent (total_borrow - total_collateral)

/-! ## Liquidation sizing and seize
(`controller/src/shared.rs` `tokens_to_seize`,
`money-market/src/seize.rs` and `ush-money-market/src/seize.rs`
`seize_internal`, `money-market/src/repay_borrow.rs`). -/

/-- `tokens_to_seize` from `controller/src/shared.rs`.  When the borrow and
collateral markets coincide (`same_market`), both prices are taken to be
`WAD`; `fx` is the collateral market's stored exchange rate and `li` its
liquidation incentive. -/
def tokens_to_seize (same_market : Bool) (borrow_price collateral_price fx li amount : ℕ) :
    ℕ :=
  let prices := if ¬ same_market then (borrow_price, collateral_price) else (WAD, WAD)
  let num := li * prices.1
  let den := prices.2 * fx / WAD
  let ratio := num / den
  amount * ratio / WAD

/-- The money-market storage fields read and written by `seize_internal`,
together with the borrower's collateral-token balance held at the
controller. -/
structure SeizeState where
  cash : ℕ
  total_borrows : ℕ
  total_reserves : ℕ
  staking_rewards : ℕ
  historical_staking_rewards : ℕ
  revenue : ℕ
  total_supply : ℕ
  initial_exchange_rate : ℕ
  protocol_seize_share : ℕ
  stake_factor : ℕ
  borrower_collateral_tokens : ℕ
  deriving Repr, DecidableEq

/-- `get_exchange_rate` from `money-market/src/common.rs`:
`liquidity * WAD / total_supply`, or the initial exchange rate when the
supply is zero. -/
def get_exchange_rate (s : SeizeState) : ℕ :=
  if s.total_supply = 0 then s.initial_exchange_rate
  else (s.cash + s.total_borrows - s.total_reserves) * WAD / s.total_supply

/-- `seize_internal` from `money-market/src/seize.rs`.  Returns the updated
state and the share tokens sent to the liquidator, or `none` when the
transaction reverts (equal addresses, controller rejection, or a `BigUint`
subtraction that would underflow). -/
def seize_internal (liquidator borrower : ℕ) (seize_allowed : Bool)
    (tokens_to_seize : ℕ) (s : SeizeState) : Option (SeizeState × ℕ) :=
  if borrower = liquidator then none
  else if ¬ seize_allowed then none
  else if s.borrower_collateral_tokens < tokens_to_seize then none
  else
    let new_borrower_collateral_tokens := s.borrower_collateral_tokens - tokens_to_seize
    let protocol_seize_tokens := s.protocol_seize_share * tokens_to_seize / WAD
    let liquidator_seize_tokens := tokens_to_seize - protocol_seize_tokens
    let delta_reserves := get_exchange_rate s * protocol_seize_tokens / WAD
    let delta_rewards := s.stake_factor * delta_reserves / WAD
    let delta_revenue := delta_reserves - delta_rewards
    if s.total_supply < protocol_seize_tokens then none
    else
      some ({ s with
        borrower_collateral_tokens := new_borrower_collateral_tokens
        total_reserves := s.total_reserves + delta_reserves
        revenue := s.revenue + delta_revenue
        staking_rewards := s.staking_rewards + delta_rewards
        historical_staking_rewards := s.historical_staking_rewards + delta_rewards
        total_supply := s.total_supply - protocol_seize_tokens },
        liquidator_seize_tokens)

/-- `EXCHANGE_RATE` from `ush-money-market/src/constants.rs`:
`10^18 * WAD / 10^8`. -/
def USH_EXCHANGE_RATE : ℕ := 10 ^ 18 * WAD / 10 ^ 8

/-- `hush_to_ush` from `ush-money-market/src/commons.rs`. -/
def hush_to_ush (tokens : ℕ) : ℕ := USH_EXCHANGE_RATE * tokens / WAD

/-- The USH-market storage fields read and written by its `seize_internal`
(the USH market tracks no cash; reserves are accounting-only). -/
structure UshSeizeState where
  total_reserves : ℕ
  staking_rewards : ℕ
  historical_staking_rewards : ℕ
  revenue : ℕ
  total_supply : ℕ
  protocol_seize_share : ℕ
  stake_factor : ℕ
  borrower_collateral_tokens : ℕ
  deriving Repr, DecidableEq

/-- `seize_internal` from `ush-money-market/src/seize.rs`. -/
def ush_seize_internal (liquidator borrower : ℕ) (seize_allowed : Bool)
    (tokens_to_seize : ℕ) (s : UshSeizeState) : Option (UshSeizeState × ℕ) :=
  if borrower = liquidator then none
  else if ¬ seize_allowed then none
  else if s.borrower_collateral_tokens < tokens_to_seize then none
  else
    let new_borrower_collateral_tokens := s.borrower_collateral_tokens - tokens_to_seize
    let protocol_seize_tokens := s.protocol_seize_share * tokens_to_seize / WAD
    let liquidator_seize_tokens := tokens_to_seize - protocol_seize_tokens
    let delta_reserves := hush_to_ush protocol_seize_tokens
    let delta_rewards := s.stake_factor * delta_reserves / WAD
    let delta_revenue := delta_reserves - delta_rewards
    if s.total_supply < protocol_seize_tokens then none
    else
      some ({ s with
        borrower_collateral_tokens := new_borrower_collateral_tokens
        total_reserves := s.total_reserves + delta_reserves
        revenue := s.revenue + delta_revenue
        staking_rewards := s.staking_rewards + delta_rewards
        historical_staking_rewards := s.historical_staking_rewards + delta_rewards
        total_supply := s.total_supply - protocol_seize_tokens },
        liquidator_seize_tokens)

/-- The borrow-snapshot arithmetic of `repay_borrow_internal` from
`money-market/src/repay_borrow.rs`: the borrower's current borrow is clamped
to `total_borrows`, the repayment is `min(current, paid)`, and the snapshot,
total borrows and refund are updated accordingly.  Returns
`(new_borrower_borrow, new_total_borrows, repaid, refund)`. -/
def repay_borrow_amounts (total_borrows account_borrow paid : ℕ) : ℕ × ℕ × ℕ × ℕ :=
  let current := min total_borrows account_borrow
  let repaid := if current ≥ paid then paid else current
  (current - repaid, total_borrows - repaid, repaid, paid - repaid)

/-! ## Rewards batches (`controller/src/rewards.rs`).  One supply-side batch
for a single reward token; `undistributed` is the `undistributed_rewards`
counter for that token. -/

/-- One rewards batch (supply side). -/
structure RewardsBatch where
  speed : ℕ
  index : ℕ
  last_time : ℕ
  end_time : ℕ
  distributed_amount : ℕ
  deriving Repr, DecidableEq

/-- The per-batch body of `update_supply_rewards_batches_state` from
`controller/src/rewards.rs`, at block timestamp `t` with the market's total
collateral tokens.  Returns the updated batch and the updated
`undistributed_rewards` counter. -/
def update_supply_rewards_batch (total_collateral_tokens t : ℕ)
    (b : RewardsBatch) (undistributed : ℕ) : RewardsBatch × ℕ :=
  if b.last_time = b.end_time ∨ t = b.last_time then (b, undistributed)
  else
    let dt := if t > b.end_time then b.end_time - b.last_time else t - b.last_time
    let b1 := { b with last_time := if t > b.end_time then b.end_time else t }
    if 0 < b.speed then
      let rewards_accrued := b.speed * dt
      if total_collateral_tokens = 0 then
        let delta_rewards := rewards_accrued / WAD
        ({ b1 with distributed_amount := b1.distributed_amount + delta_rewards },
         undistributed + delta_rewards)
      else
        let delta_index := rewards_accrued * WAD / total_collateral_tokens
        if delta_index ≠ 0 then
          ({ b1 with index := b1.index + delta_index }, undistributed)
        else (b1, undistributed + rewards_accrued / WAD)
    else (b1, undistributed)

/-- The per-batch body of `distribute_supplier_batches_rewards` from
`controller/src/rewards.rs`: `supplier_index` is the stored per-account
per-batch index (`none` on first encounter, defaulting to `WAD * WAD`).
Returns the updated batch, the new stored account index, and the rewards
added to the supplier's accrued rewards. -/
def distribute_supplier_batch (account_collateral_tokens : ℕ)
    (supplier_index : Option ℕ) (b : RewardsBatch) : RewardsBatch × ℕ × ℕ :=
  let prev_index := match supplier_index with
    | none => WAD * WAD
    | some index => index
  let delta_index := b.index - prev_index
  let delta_rewards := account_collateral_tokens * delta_index / (WAD * WAD)
  ({ b with distributed_amount := b.distributed_amount + delta_rewards },
   b.index, delta_rewards)

/-- The scenario S5 supply batch: speed `2e18`, initial index `WAD * WAD`,
running from time 0 to time 100. -/
def s5_batch : RewardsBatch where
  speed := 2 * 10 ^ 18
  index := WAD * WAD
  last_time := 0
  end_time := 100
  distributed_amount := 0

/-! ## USH effective-borrow accounting (`ush-money-market/src/commons.rs`,
`update_borrows_data`). -/

/-- `ceil_div` from `ush-money-market/src/commons.rs`:
`(num + (den - 1)) / den`. -/
def ceil_div (num den : ℕ) : ℕ := (num + (den - 1)) / den

/-- The `effective_borrows` update at the end of `update_borrows_data`: the
positive contribution `(WAD - discount) * new_borrow / WAD` is added first,
and the negative contribution
`ceil_div((WAD - old_discount) * market_index * old_borrow, account_index * WAD)`
is subtracted only after being capped at the current value. -/
def update_effective_borrows (effective_borrows discount new_borrow
    old_discount market_index old_borrow account_index : ℕ) : ℕ :=
  let pos := effective_borrows + (WAD - discount) * new_borrow / WAD
  let num := (WAD - old_discount) * market_index * old_borrow
  let den := account_index * WAD
  pos - min pos (ceil_div num den)

/-! ## Theorems -/

/-- C7: for all inputs `(borrows, liquidity)` and stored parameters
`(r0, m1, m2, u_opt, r_max)`, `get_borrow_rate` returns `r0` if
`borrows = 0`; `r_max` if `liquidity = 0`; `r0 + m1*u/WAD` if
`u = borrows*WAD/liquidity ≤ u_opt`; and otherwise
`min(r1 + m2*(u - u_opt)/WAD, r_max)` with `r1 = r0 + m1*u_opt/WAD`, all
arithmetic being truncating integer division in WAD fixed point. -/
theorem get_borrow_rate_piecewise (m : InterestRateModel) (borrows liquidity : ℕ) :
    get_borrow_rate m borrows liquidity =
      if borrows = 0 then m.base_rate
      else if liquidity = 0 then m.max_borrow_rate
      else if borrows * WAD / liquidity ≤ m.optimal_utilization then
        m.base_rate + m.first_slope * (borrows * WAD / liquidity) / WAD
      else
        min (m.base_rate + m.first_slope * m.optimal_utilization / WAD
          + m.last_slope * (borrows * WAD / liquidity - m.optimal_utilization) / WAD)
          m.max_borrow_rate := by
  unfold get_borrow_rate get_utilization
  by_cases hb : borrows = 0
  · simp [hb]
  · by_cases hl : liquidity = 0
    · simp [hb, hl]
    · simp only [hb, hl, if_false]
      by_cases hu : borrows * WAD / liquidity ≤ m.optimal_utilization
      · simp [hu, Nat.add_comm]
      · simp only [hu, if_false]
        rw [min_def]
        split_ifs <;> omega

/-- C9: the `effective_borrows` update of `update_borrows_data` never
underflows: seen over ℤ, the stored value equals the positive contribution
minus the capped negative contribution, is always non-negative, and when the
ceiling term does not exceed the running value the cap is inactive and the
exact difference is stored. -/
theorem update_effective_borrows_no_underflow
    (eff disc newB oldDisc mIdx oldB aIdx : ℕ) :
    ((update_effective_borrows eff disc newB oldDisc mIdx oldB aIdx : ℕ) : ℤ) =
      ((eff + (WAD - disc) * newB / WAD : ℕ) : ℤ) -
        ((min (eff + (WAD - disc) * newB / WAD)
          (ceil_div ((WAD - oldDisc) * mIdx * oldB) (aIdx * WAD)) : ℕ) : ℤ) ∧
    0 ≤ ((update_effective_borrows eff disc newB oldDisc mIdx oldB aIdx : ℕ) : ℤ) ∧
    (ceil_div ((WAD - oldDisc) * mIdx * oldB) (aIdx * WAD) ≤
        eff + (WAD - disc) * newB / WAD →
      update_effective_borrows eff disc newB oldDisc mIdx oldB aIdx =
        eff + (WAD - disc) * newB / WAD -
          ceil_div ((WAD - oldDisc) * mIdx * oldB) (aIdx * WAD)) := by
  unfold update_effective_borrows
  dsimp only
  refine ⟨?_, ?_, ?_⟩
  · rw [Nat.cast_sub (min_le_left _ _)]
  · have h := min_le_left (eff + (WAD - disc) * newB / WAD)
      (ceil_div ((WAD - oldDisc) * mIdx * oldB) (aIdx * WAD))
    omega
  · intro h
    rw [min_eq_right h]

/-- Witness for C9's third conjunct: at `effective_borrows = 1000`, zero new
borrow, `old_discount = 0`, `market_index = 2 WAD`, `old_borrow = 500` and
`account_index = WAD`, the ceiling term is exactly 1000 and the stored value
is 0. -/
theorem update_effective_borrows_no_underflow_witness :
    update_effective_borrows 1000 0 0 0 (2 * WAD) 500 WAD =
      1000 + (WAD - 0) * 0 / WAD - ceil_div ((WAD - 0) * (2 * WAD) * 500) (WAD * WAD) :=
  (update_effective_borrows_no_underflow 1000 0 0 0 (2 * WAD) 500 WAD).2.2 (by decide)

/-- The state returned by `update_and_get_collateral_factors` stores exactly
the factors it returns. -/
theorem update_and_get_collateral_factors_fields (t : ℕ)
    (s : CollateralFactorsState) :
    (update_and_get_collateral_factors t s).2.collateral_factor =
      (update_and_get_collateral_factors t s).1.1 ∧
    (update_and_get_collateral_factors t s).2.ush_borrower_collateral_factor =
      (update_and_get_collateral_factors t s).1.2 := by
  unfold update_and_get_collateral_factors
  rcases hnext : s.next_collateral_factors with _ | ⟨apply_at, next_cf, next_uf⟩
  · exact ⟨rfl, rfl⟩
  · by_cases ht : t < apply_at <;> simp [ht]

/-- `valid_collateral_factor_decrease` accepts exactly the decreases bounded
by `min(0.1 WAD, old)`. -/
theorem valid_collateral_factor_decrease_iff (a b : ℕ) :
    valid_collateral_factor_decrease a b = true ↔
      b - a ≤ min MAX_COLLATERAL_FACTOR_DECREASE b := by
  unfold valid_collateral_factor_decrease
  split_ifs with h
  · simp only [true_iff]
    omega
  · simp only [decide_eq_true_eq, ge_iff_le]
    omega

/-- C4: the four quadrants of `set_collateral_factors` relative to the current
(lazily promoted) factors `(cf, uf)`: non-decreases apply immediately and
clear any pending entry; a decrease in exactly one dimension applies the
other immediately and stores a pending `(now + 1 day, new_cf, new_uf)`; a
decrease in both stores only the pending entry; a decrease beyond
`min(0.1 WAD, old)` in either dimension reverts; and a read at or after the
pending apply timestamp promotes and clears the pending values. -/
theorem set_collateral_factors_spec (timestamp new_cf new_uf : ℕ)
    (s : CollateralFactorsState)
    (hmax : new_cf ≤ MAX_COLLATERAL_FACTOR) (horder : new_uf ≤ new_cf) :
    ((update_and_get_collateral_factors timestamp s).1.1 ≤ new_cf →
     (update_and_get_collateral_factors timestamp s).1.2 ≤ new_uf →
      set_collateral_factors timestamp new_cf new_uf s =
        some ⟨new_cf, new_uf, none⟩) ∧
    (new_cf < (update_and_get_collateral_factors timestamp s).1.1 →
     (update_and_get_collateral_factors timestamp s).1.2 ≤ new_uf →
     (update_and_get_collateral_factors timestamp s).1.1 - new_cf ≤
        min MAX_COLLATERAL_FACTOR_DECREASE
          (update_and_get_collateral_factors timestamp s).1.1 →
      set_collateral_factors timestamp new_cf new_uf s =
        some ⟨(update_and_get_collateral_factors timestamp s).1.1, new_uf,
          some (timestamp + TIMELOCK_COLLATERAL_FACTOR_DECREASE, new_cf, new_uf)⟩) ∧
    ((update_and_get_collateral_factors timestamp s).1.1 ≤ new_cf →
     new_uf < (update_and_get_collateral_factors timestamp s).1.2 →
     (update_and_get_collateral_factors timestamp s).1.2 - new_uf ≤
        min MAX_COLLATERAL_FACTOR_DECREASE
          (update_and_get_collateral_factors timestamp s).1.2 →
      set_collateral_factors timestamp new_cf new_uf s =
        some ⟨new_cf, (update_and_get_collateral_factors timestamp s).1.2,
          some (timestamp + TIMELOCK_COLLATERAL_FACTOR_DECREASE, new_cf, new_uf)⟩) ∧
    (new_cf < (update_and_get_collateral_factors timestamp s).1.1 →
     new_uf < (update_and_get_collateral_factors timestamp s).1.2 →
     (update_and_get_collateral_factors timestamp s).1.1 - new_cf ≤
        min MAX_COLLATERAL_FACTOR_DECREASE
          (update_and_get_collateral_factors timestamp s).1.1 →
     (update_and_get_collateral_factors timestamp s).1.2 - new_uf ≤
        min MAX_COLLATERAL_FACTOR_DECREASE
          (update_and_get_collateral_factors timestamp s).1.2 →
      set_collateral_factors timestamp new_cf new_uf s =
        some ⟨(update_and_get_collateral_factors timestamp s).1.1,
          (update_and_get_collateral_factors timestamp s).1.2,
          some (timestamp + TIMELOCK_COLLATERAL_FACTOR_DECREASE, new_cf, new_uf)⟩) ∧
    (((new_cf < (update_and_get_collateral_factors timestamp s).1.1 ∧
        min MAX_COLLATERAL_FACTOR_DECREASE
          (update_and_get_collateral_factors timestamp s).1.1 <
          (update_and_get_collateral_factors timestamp s).1.1 - new_cf) ∨
      (new_uf < (update_and_get_collateral_factors timestamp s).1.2 ∧
        min MAX_COLLATERAL_FACTOR_DECREASE
          (update_and_get_collateral_factors timestamp s).1.2 <
          (update_and_get_collateral_factors timestamp s).1.2 - new_uf)) →
      set_collateral_factors timestamp new_cf new_uf s = none) ∧
    (∀ apply_at next_cf next_uf,
      s.next_collateral_factors = some (apply_at, next_cf, next_uf) →
      (timestamp < apply_at →
        update_and_get_collateral_factors timestamp s =
          ((s.collateral_factor, s.ush_borrower_collateral_factor), s)) ∧
      (apply_at ≤ timestamp →
        update_and_get_collateral_factors timestamp s =
          ((next_cf, next_uf), ⟨next_cf, next_uf, none⟩))) := by
  have hfields := update_and_get_collateral_factors_fields timestamp s
  have hdef : set_collateral_factors timestamp new_cf new_uf s =
      (if ¬ new_cf ≤ MAX_COLLATERAL_FACTOR then none
       else if ¬ new_cf ≥ new_uf then none
       else if new_cf < (update_and_get_collateral_factors timestamp s).1.1 ∧
          new_uf < (update_and_get_collateral_factors timestamp s).1.2 then
         if ¬ valid_collateral_factor_decrease new_cf
            (update_and_get_collateral_factors timestamp s).1.1 then none
         else if ¬ valid_collateral_factor_decrease new_uf
            (update_and_get_collateral_factors timestamp s).1.2 then none
         else some (set_next_collateral_factors timestamp new_cf new_uf
            (update_and_get_collateral_factors timestamp s).2)
       else if new_cf < (update_and_get_collateral_factors timestamp s).1.1 ∧
          new_uf ≥ (update_and_get_collateral_factors timestamp s).1.2 then
         if ¬ valid_collateral_factor_decrease new_cf
            (update_and_get_collateral_factors timestamp s).1.1 then none
         else some (set_next_collateral_factors timestamp new_cf new_uf
            { (update_and_get_collateral_factors timestamp s).2 with
              ush_borrower_collateral_factor := new_uf })
       else if new_cf ≥ (update_and_get_collateral_factors timestamp s).1.1 ∧
          new_uf < (update_and_get_collateral_factors timestamp s).1.2 then
         if ¬ valid_collateral_factor_decrease new_uf
            (update_and_get_collateral_factors timestamp s).1.2 then none
         else some (set_next_collateral_factors timestamp new_cf new_uf
            { (update_and_get_collateral_factors timestamp s).2 with
              collateral_factor := new_cf })
       else some ⟨new_cf, new_uf, none⟩) := rfl
  have hvc := valid_collateral_factor_decrease_iff new_cf
    (update_and_get_collateral_factors timestamp s).1.1
  have hvu := valid_collateral_factor_decrease_iff new_uf
    (update_and_get_collateral_factors timestamp s).1.2
  rw [hdef]
  rw [if_neg (not_not_intro hmax), if_neg (not_not_intro horder)]
  refine ⟨?_, ?_, ?_, ?_, ?_, ?_⟩
  · intro h1 h2
    rw [if_neg (by omega), if_neg (by omega), if_neg (by omega)]
  · intro h1 h2 h3
    have hvct : valid_collateral_factor_decrease new_cf
        (update_and_get_collateral_factors timestamp s).1.1 = true := hvc.mpr h3
    rw [if_neg (by omega), if_pos ⟨h1, h2⟩, if_neg (not_not_intro hvct)]
    unfold set_next_collateral_factors
    dsimp only
    rw [hfields.1]
  · intro h1 h2 h3
    have hvut : valid_collateral_factor_decrease new_uf
        (update_and_get_collateral_factors timestamp s).1.2 = true := hvu.mpr h3
    rw [if_neg (by omega), if_neg (by omega), if_pos ⟨by omega, h2⟩,
      if_neg (not_not_intro hvut)]
    unfold set_next_collateral_factors
    dsimp only
    rw [hfields.2]
  · intro h1 h2 h3 h4
    have hvct : valid_collateral_factor_decrease new_cf
        (update_and_get_collateral_factors timestamp s).1.1 = true := hvc.mpr h3
    have hvut : valid_collateral_factor_decrease new_uf
        (update_and_get_collateral_factors timestamp s).1.2 = true := hvu.mpr h4
    rw [if_pos ⟨h1, h2⟩, if_neg (not_not_intro hvct), if_neg (not_not_intro hvut)]
    unfold set_next_collateral_factors
    dsimp only
    rw [hfields.1, hfields.2]
  · intro hbad
    rcases hbad with ⟨h1, h2⟩ | ⟨h1, h2⟩
    · have hvcf : ¬ valid_collateral_factor_decrease new_cf
          (update_and_get_collateral_factors timestamp s).1.1 = true :=
        fun hb => absurd (hvc.mp hb) (by omega)
      by_cases hu2 : new_uf < (update_and_get_collateral_factors timestamp s).1.2
      · rw [if_pos ⟨h1, hu2⟩, if_pos hvcf]
      · rw [if_neg (by omega), if_pos ⟨h1, by omega⟩, if_pos hvcf]
    · have hvuf : ¬ valid_collateral_factor_decrease new_uf
          (update_and_get_collateral_factors timestamp s).1.2 = true :=
        fun hb => absurd (hvu.mp hb) (by omega)
      by_cases hc2 : new_cf < (update_and_get_collateral_factors timestamp s).1.1
      · rw [if_pos ⟨hc2, h1⟩]
        by_cases hvcb : valid_collateral_factor_decrease new_cf
            (update_and_get_collateral_factors timestamp s).1.1 = true
        · rw [if_neg (not_not_intro hvcb), if_pos hvuf]
        · rw [if_pos hvcb]
      · rw [if_neg (by omega), if_neg (by omega), if_pos ⟨by omega, h1⟩,
          if_pos hvuf]
  · intro apply_at next_cf next_uf hnext
    unfold update_and_get_collateral_factors
    rw [hnext]
    constructor
    · intro ht
      simp [ht]
    · intro ht
      simp [Nat.not_lt_of_le ht]

/-- Witness for C4: scenario S2.  With `CF = 0.8 WAD`, `UF = 0.6 WAD` and no
pending entry, `set_collateral_factors(0.75 WAD, 0.55 WAD)` at time 1000
changes nothing immediately and stores the pending entry for time 87400; a
read at time 87400 promotes and clears it. -/
theorem set_collateral_factors_spec_witness :
    set_collateral_factors 1000 (75 * 10 ^ 16) (55 * 10 ^ 16)
        ⟨8 * 10 ^ 17, 6 * 10 ^ 17, none⟩ =
      some ⟨8 * 10 ^ 17, 6 * 10 ^ 17, some (87400, 75 * 10 ^ 16, 55 * 10 ^ 16)⟩ ∧
    update_and_get_collateral_factors 87400
        ⟨8 * 10 ^ 17, 6 * 10 ^ 17, some (87400, 75 * 10 ^ 16, 55 * 10 ^ 16)⟩ =
      ((75 * 10 ^ 16, 55 * 10 ^ 16), ⟨75 * 10 ^ 16, 55 * 10 ^ 16, none⟩) := by
  constructor
  · have h := set_collateral_factors_spec 1000 (75 * 10 ^ 16) (55 * 10 ^ 16)
      ⟨8 * 10 ^ 17, 6 * 10 ^ 17, none⟩ (by decide) (by decide)
    exact (h.2.2.2.1 (by decide) (by decide) (by decide) (by decide)).trans
      (by decide)
  · have h := set_collateral_factors_spec 87400 (75 * 10 ^ 16) (55 * 10 ^ 16)
      ⟨8 * 10 ^ 17, 6 * 10 ^ 17, some (87400, 75 * 10 ^ 16, 55 * 10 ^ 16)⟩
      (by decide) (by decide)
    exact (h.2.2.2.2.2 87400 (75 * 10 ^ 16) (55 * 10 ^ 16) rfl).2 (by decide)

/-- Truncating 10% of a value: `k ≤ n * 1000 / 10000` is exactly
`10 * k ≤ n`. -/
theorem le_ten_percent_iff (k n : ℕ) : k ≤ n * 1000 / 10000 ↔ 10 * k ≤ n := by
  rw [Nat.le_div_iff_mul_le (by norm_num)]
  omega

/-- C6: a successful `set_borrow_apr` on an already-set USH borrow rate
changes it by at most 10% of the old rate, and a successful increase happens
at least one day after the previous increase (the code stamps
`last_borrow_rate_update` on every successful change, so the last increase is
no later than `last_update`); conversely, a change beyond 10% of the old
rate, or an increase within a day of the previous increase, reverts and
leaves the stored rate unchanged. -/
theorem set_borrow_apr_spec (timestamp last_update last_increase old_rate
    borrow_apr : ℕ) (h_inc : last_increase ≤ last_update) :
    (∀ result, set_borrow_apr timestamp (some old_rate) last_update borrow_apr
        = some result →
      10 * (max (borrow_apr / SECONDS_PER_YEAR) old_rate
        - min (borrow_apr / SECONDS_PER_YEAR) old_rate) ≤ old_rate ∧
      (old_rate < borrow_apr / SECONDS_PER_YEAR →
        BORROW_RATE_DELAY ≤ timestamp - last_increase)) ∧
    ((old_rate < 10 * (max (borrow_apr / SECONDS_PER_YEAR) old_rate
        - min (borrow_apr / SECONDS_PER_YEAR) old_rate) ∨
      (old_rate < borrow_apr / SECONDS_PER_YEAR ∧
        timestamp - last_increase < BORROW_RATE_DELAY)) →
      set_borrow_apr timestamp (some old_rate) last_update borrow_apr = none) := by
  have hmono : timestamp - last_update ≤ timestamp - last_increase :=
    Nat.sub_le_sub_left h_inc timestamp
  have hallowed : ∀ a b : ℕ, is_borrow_rate_change_allowed a b = true ↔
      10 * (max b a - min b a) ≤ a := by
    intro a b
    simp only [is_borrow_rate_change_allowed, MAX_BORROW_RATE_CHANGE, BPS,
      decide_eq_true_eq]
    rw [le_ten_percent_iff]
    split_ifs with h <;> omega
  have hdef : set_borrow_apr timestamp (some old_rate) last_update borrow_apr =
      (if borrow_apr / SECONDS_PER_YEAR = 0 then none
       else if borrow_apr / SECONDS_PER_YEAR = old_rate then none
       else if ¬ is_borrow_rate_change_allowed old_rate
          (borrow_apr / SECONDS_PER_YEAR) then none
       else if borrow_apr / SECONDS_PER_YEAR > old_rate ∧
          ¬ (timestamp - last_update ≥ BORROW_RATE_DELAY) then none
       else some (borrow_apr / SECONDS_PER_YEAR, timestamp)) := rfl
  constructor
  · intro result hsome
    rw [hdef] at hsome
    by_cases h0 : borrow_apr / SECONDS_PER_YEAR = 0
    · rw [if_pos h0] at hsome; exact Option.noConfusion hsome
    rw [if_neg h0] at hsome
    by_cases h1 : borrow_apr / SECONDS_PER_YEAR = old_rate
    · rw [if_pos h1] at hsome; exact Option.noConfusion hsome
    rw [if_neg h1] at hsome
    by_cases h2 : is_borrow_rate_change_allowed old_rate
        (borrow_apr / SECONDS_PER_YEAR) = true
    · rw [if_neg (by simp [h2])] at hsome
      by_cases h3 : borrow_apr / SECONDS_PER_YEAR > old_rate ∧
          ¬ (timestamp - last_update ≥ BORROW_RATE_DELAY)
      · rw [if_pos h3] at hsome; exact Option.noConfusion hsome
      · refine ⟨(hallowed _ _).mp h2, fun hlt => ?_⟩
        simp only [BORROW_RATE_DELAY] at h3 ⊢
        omega
    · rw [if_pos (by simp [h2])] at hsome; exact Option.noConfusion hsome
  · intro hbad
    rw [hdef]
    by_cases h0 : borrow_apr / SECONDS_PER_YEAR = 0
    · rw [if_pos h0]
    rw [if_neg h0]
    by_cases h1 : borrow_apr / SECONDS_PER_YEAR = old_rate
    · rw [if_pos h1]
    rw [if_neg h1]
    by_cases h2 : is_borrow_rate_change_allowed old_rate
        (borrow_apr / SECONDS_PER_YEAR) = true
    · rw [if_neg (by simp [h2])]
      have hA := (hallowed _ _).mp h2
      have hB : old_rate < borrow_apr / SECONDS_PER_YEAR ∧
          timestamp - last_increase < BORROW_RATE_DELAY := by
        rcases hbad with hA2 | hB
        · exact absurd hA (by omega)
        · exact hB
      refine if_pos ⟨hB.1, ?_⟩
      have := hB.2
      simp only [BORROW_RATE_DELAY] at *
      omega
    · rw [if_pos (by simp [h2])]

/-- Witness for C6: with the old rate `1000`, an increase to `1050` (within
10%) one day after the last update succeeds, so the theorem's conclusions
hold there; the revert branch is hit by an attempted jump to `1200`. -/
theorem set_borrow_apr_spec_witness :
    (10 * (max ((1050 * SECONDS_PER_YEAR) / SECONDS_PER_YEAR) 1000
      - min ((1050 * SECONDS_PER_YEAR) / SECONDS_PER_YEAR) 1000) ≤ 1000 ∧
     (1000 < (1050 * SECONDS_PER_YEAR) / SECONDS_PER_YEAR →
       BORROW_RATE_DELAY ≤ 100000 - 0)) ∧
    set_borrow_apr 100000 (some 1000) 0 (1200 * SECONDS_PER_YEAR) = none := by
  constructor
  · exact (set_borrow_apr_spec 100000 0 0 1000 (1050 * SECONDS_PER_YEAR)
      (Nat.le_refl 0)).1 (1050, 100000) (by decide)
  · exact (set_borrow_apr_spec 100000 0 0 1000 (1200 * SECONDS_PER_YEAR)
      (Nat.le_refl 0)).2 (by left; decide)

/-- For a positive divisor that does not divide the dividend, incrementing the
truncated quotient yields the ceiling quotient. -/
theorem div_succ_of_not_dvd {n d : ℕ} (hd : 0 < d) (h : ¬ d ∣ n) :
    n / d + 1 = (n + (d - 1)) / d := by
  have hmod : n % d ≠ 0 := fun h0 => h (Nat.dvd_of_mod_eq_zero h0)
  have h1 : n % d < d := Nat.mod_lt n hd
  have h2 : d * (n / d) + n % d = n := Nat.div_add_mod n d
  have h3 : n + (d - 1) = (n % d - 1) + (n / d + 1) * d := by
    have h4 : (n / d + 1) * d = d * (n / d) + d := by ring
    omega
  rw [h3, Nat.add_mul_div_right _ _ hd]
  rw [Nat.div_eq_of_lt (show n % d - 1 < d by omega)]
  omega

/-- C5 counterexample: redeeming by underlying `1` at exchange rate `WAD` with
`5` share tokens paid in burns `2` share tokens, although
`ceil(1 * WAD / WAD) = 1`: when `underlying * WAD` is exactly divisible by the
exchange rate, the code burns one token more than the claimed ceiling. -/
theorem redeem_underlying_amount_cex :
    redeem_underlying_amount WAD 5 1 = some (1, 2, 3) ∧
    (2 : ℕ) ≠ (1 * WAD + (WAD - 1)) / WAD := by
  exact ⟨by decide, by decide⟩

/-- C5 (amended): redeem by tokens sends `tokens * exchange_rate / WAD`
underlying; redeem by underlying burns `underlying * WAD / exchange_rate + 1`
share tokens — which equals `ceil(underlying * WAD / exchange_rate)` exactly
when the division is inexact, and one more than the exact quotient otherwise —
refunds the excess over that number, and reverts when fewer tokens were
paid. -/
theorem redeem_spec (fx paid underlying tokens : ℕ) (hfx : 0 < fx) :
    (redeem_tokens fx tokens).1 = tokens * fx / WAD ∧
    (∀ u b r, redeem_underlying_amount fx paid underlying = some (u, b, r) →
      u = underlying ∧
      b = underlying * WAD / fx + 1 ∧
      r = paid - b ∧ b ≤ paid ∧
      (¬ fx ∣ underlying * WAD → b = (underlying * WAD + (fx - 1)) / fx)) ∧
    (paid < underlying * WAD / fx + 1 →
      redeem_underlying_amount fx paid underlying = none) := by
  refine ⟨by simp [redeem_tokens, tokens_to_underlying_amount, Nat.mul_comm], ?_, ?_⟩
  · intro u b r hsome
    unfold redeem_underlying_amount underlying_amount_to_tokens at hsome
    simp only [Nat.add_one_ne_zero, if_false] at hsome
    split_ifs at hsome with hlt
    rcases hsome with ⟨⟩
    exact ⟨rfl, rfl, rfl, by omega,
      fun hdvd => div_succ_of_not_dvd hfx hdvd⟩
  · intro hlt
    unfold redeem_underlying_amount underlying_amount_to_tokens
    simp only [Nat.add_one_ne_zero, if_false]
    rw [if_pos hlt]

/-- Witness for C5: at exchange rate `2 WAD`, redeeming `3` underlying with `5`
tokens paid burns `2` tokens, which is the ceiling of the inexact quotient
`3 WAD / 2 WAD`, and redeem by tokens converts `7` tokens at that rate. -/
theorem redeem_spec_witness :
    (redeem_tokens (2 * WAD) 7).1 = 7 * (2 * WAD) / WAD ∧
    (2 : ℕ) = 3 * WAD / (2 * WAD) + 1 ∧
    (2 : ℕ) = (3 * WAD + (2 * WAD - 1)) / (2 * WAD) := by
  have h := redeem_spec (2 * WAD) 5 3 7 (by decide)
  have h2 := h.2.1 3 2 3 (by decide)
  refine ⟨h.1, h2.2.1, h2.2.2.2.2 ?_⟩
  intro hdvd
  rcases hdvd with ⟨k, hk⟩
  simp only [WAD] at hk
  omega

/-- The accumulation loop of `simulate_risk_profile` computes, on top of its
initial accumulator, the sums of the per-market borrow and collateral
contributions. -/
theorem risk_profile_loop_eq (ushb : Bool)
    (this_money_market redeem_tokens borrow_amount : ℕ)
    (l : List AccountMarketData) (a c : ℕ) :
    risk_profile_loop ushb this_money_market redeem_tokens borrow_amount (a, c) l =
      (a + (l.map (fun d => borrow_contribution
          (if ¬ ushb then d.collateral_factor else d.ush_borrower_collateral_factor)
          this_money_market redeem_tokens borrow_amount d)).sum,
       c + (l.map (fun d => collateral_contribution
          (if ¬ ushb then d.collateral_factor
           else d.ush_borrower_collateral_factor) d)).sum) := by
  induction l generalizing a c with
  | nil => simp [risk_profile_loop]
  | cons d tl ih =>
    simp only [risk_profile_loop] at ih ⊢
    rw [List.foldl_cons]
    simp only [List.map_cons, List.sum_cons]
    by_cases hm : d.money_market = this_money_market
    · simp only [hm, if_true, ite_true, borrow_contribution,
        collateral_contribution]
      rw [ih]
      simp only [borrow_contribution, collateral_contribution, hm, if_true,
        ite_true]
      rw [Prod.mk.injEq]
      constructor <;> omega
    · simp only [hm, if_false, ite_false, borrow_contribution,
        collateral_contribution]
      rw [ih]
      simp only [borrow_contribution, collateral_contribution, hm, if_false,
        ite_false]
      rw [Prod.mk.injEq]
      constructor <;> omega

/-- C2: `simulate_risk_profile` short-circuits to `Solvent(0)` in lazy mode
for non-borrowers; otherwise, with the loan-to-value of every market chosen
as `UF` exactly when the account has a nonzero USH-market borrow (or the
simulated borrow is at the USH market) and `CF` otherwise, it accumulates
`ltv*(fx*price/WAD)/WAD * collateral_tokens/WAD` into `total_collateral` and
`price*owed/WAD` (plus the redeem and borrow perturbations for
`this_market`) into `total_borrow`, and returns
`Solvent(total_collateral - total_borrow)` when
`total_collateral ≥ total_borrow` and
`RiskyOrInsolvent(total_borrow - total_collateral)` otherwise. -/
theorem simulate_risk_profile_spec (ush_market : ℕ)
    (snapshots : List AccountMarketData)
    (this_money_market redeem_tokens borrow_amount : ℕ) (lazy : Bool) :
    simulate_risk_profile ush_market snapshots this_money_market redeem_tokens
        borrow_amount lazy =
      (if lazy && ! is_borrower snapshots borrow_amount then
        RiskProfile.Solvent 0
       else
        let ltvd := fun d : AccountMarketData =>
          if is_ush_borrower ush_market snapshots this_money_market borrow_amount
          then d.ush_borrower_collateral_factor else d.collateral_factor
        let total_collateral :=
          (snapshots.map (fun d => collateral_contribution (ltvd d) d)).sum
        let total_borrow := (snapshots.map (fun d =>
          borrow_contribution (ltvd d) this_money_market redeem_tokens
            borrow_amount d)).sum
        if total_borrow ≤ total_collateral then
          RiskProfile.Solvent (total_collateral - total_borrow)
        else RiskProfile.RiskyOrInsolvent (total_borrow - total_collateral)) := by
  unfold simulate_risk_profile
  dsimp only
  by_cases hl : (lazy && ! is_borrower snapshots borrow_amount) = true
  · rw [if_pos hl, if_pos hl]
  · rw [if_neg hl, if_neg hl]
    rw [risk_profile_loop_eq]
    dsimp only
    cases hub : is_ush_borrower ush_market snapshots this_money_market
        borrow_amount <;>
      simp [hub, ge_iff_le]

/-- C8: advancing an active supply batch from `last_time` to `t` with nonzero
total collateral tokens adds
`delta_index = speed * (min(t, end_time) - last_time) * WAD / denom` to the
batch index when that quantity is nonzero, and otherwise routes
`speed * dt / WAD` to `undistributed_rewards`; a subsequent per-account
distribution with prior index `prev` (defaulting to `WAD * WAD`) adds
`account_collateral_tokens * (index - prev) / WAD^2` to the supplier's
accrued rewards and to the batch's `distributed_amount`, recording `index`
as the new snapshot; on scenario S5 the supplier receives exactly 2 reward
units. -/
theorem supply_rewards_spec (total_collateral_tokens t : ℕ) (b : RewardsBatch)
    (undistributed : ℕ) (h1 : b.last_time ≠ b.end_time) (h2 : t ≠ b.last_time)
    (h0 : total_collateral_tokens ≠ 0) :
    (b.speed * (min t b.end_time - b.last_time) * WAD / total_collateral_tokens
        ≠ 0 →
      update_supply_rewards_batch total_collateral_tokens t b undistributed =
        ({ b with
            index := b.index + b.speed * (min t b.end_time - b.last_time) * WAD /
              total_collateral_tokens
            last_time := min t b.end_time }, undistributed)) ∧
    (b.speed * (min t b.end_time - b.last_time) * WAD / total_collateral_tokens
        = 0 →
      update_supply_rewards_batch total_collateral_tokens t b undistributed =
        ({ b with last_time := min t b.end_time },
         undistributed + b.speed * (min t b.end_time - b.last_time) / WAD)) ∧
    (∀ account_collateral_tokens supplier_index b2,
      distribute_supplier_batch account_collateral_tokens supplier_index b2 =
        ({ b2 with distributed_amount := b2.distributed_amount +
            account_collateral_tokens *
              (b2.index - Option.getD supplier_index (WAD * WAD)) / (WAD * WAD) },
         b2.index,
         account_collateral_tokens *
           (b2.index - Option.getD supplier_index (WAD * WAD)) / (WAD * WAD))) ∧
    (distribute_supplier_batch 100 none
      (update_supply_rewards_batch 1000 10 s5_batch 0).1).2.2 = 2 := by
  have hcond : ¬ (b.last_time = b.end_time ∨ t = b.last_time) := by tauto
  have hdt : (if t > b.end_time then b.end_time - b.last_time
      else t - b.last_time) = min t b.end_time - b.last_time := by
    rcases le_or_lt t b.end_time with h | h
    · rw [if_neg (by omega), min_eq_left h]
    · rw [if_pos h, min_eq_right (by omega)]
  have hlast : (if t > b.end_time then b.end_time else t) = min t b.end_time := by
    rcases le_or_lt t b.end_time with h | h
    · rw [if_neg (by omega), min_eq_left h]
    · rw [if_pos h, min_eq_right (by omega)]
  refine ⟨?_, ?_, ?_, by decide⟩
  · intro hne
    unfold update_supply_rewards_batch
    rw [if_neg hcond]
    dsimp only
    rw [hdt, hlast]
    by_cases hsp : 0 < b.speed
    · rw [if_pos hsp, if_neg h0,
        if_pos (by simpa [Nat.mul_div_assoc] using hne)]
    · exfalso
      have hz : b.speed = 0 := by omega
      rw [hz] at hne
      simp at hne
  · intro heq
    unfold update_supply_rewards_batch
    rw [if_neg hcond]
    dsimp only
    rw [hdt, hlast]
    by_cases hsp : 0 < b.speed
    · rw [if_pos hsp, if_neg h0, if_neg (not_not_intro heq)]
    · rw [if_neg hsp]
      have hz : b.speed = 0 := by omega
      rw [hz]
      simp
  · intro account_collateral_tokens supplier_index b2
    unfold distribute_supplier_batch
    rcases supplier_index with _ | index <;> rfl

/-- Witness for C8: on scenario S5 (total collateral 1000, speed `2e18`,
start index `WAD^2`, 10 seconds elapsed), the batch index advances by
`2e34` and no rewards are routed to `undistributed_rewards`. -/
theorem supply_rewards_spec_witness :
    update_supply_rewards_batch 1000 10 s5_batch 0 =
      ({ s5_batch with
          index := s5_batch.index +
            s5_batch.speed * (min 10 s5_batch.end_time - s5_batch.last_time) *
              WAD / 1000
          last_time := min 10 s5_batch.end_time }, 0) :=
  (supply_rewards_spec 1000 10 s5_batch 0 (by decide) (by decide)
    (by decide)).1 (by decide)

/-- C3 counterexample: at `repay = 100`, `li = 1.08 WAD`,
`p_b = 1 WAD`, `p_c = 2 WAD`, `fx = 1 WAD`, the controller computes `54`
seized tokens, while the claimed formula `repay * li * p_b * WAD / (p_c * fx)`
over the WAD-scaled integers evaluates to `54e18`: the claimed formula carries
a spurious `WAD` factor. -/
theorem tokens_to_seize_cex :
    tokens_to_seize false (10 ^ 18) (2 * 10 ^ 18) (10 ^ 18) (108 * 10 ^ 16) 100
        = 54 ∧
    100 * (108 * 10 ^ 16) * 10 ^ 18 * WAD / ((2 * 10 ^ 18) * 10 ^ 18)
        = 54 * 10 ^ 18 ∧
    (54 : ℕ) ≠ 54 * 10 ^ 18 := by
  exact ⟨by decide, by decide, by decide⟩

/-- C3 (amended): the controller computes
`seize = repay * ((li * p_b) / ((p_c * fx) / WAD)) / WAD` (truncating
divisions; in exact arithmetic `repay·li·p_b/(p_c·fx)` over WAD-scaled
integers, with both prices `WAD` when the markets coincide); a successful
seize decreases the borrower's collateral tokens by exactly the seized
amount, which therefore did not exceed them; and the repayment arithmetic
never increases — and, for a positive payment against a positive debt,
strictly decreases — the borrower's outstanding borrow. -/
theorem liquidation_seize_spec (borrow_price collateral_price fx li repay : ℕ)
    (liquidator borrower : ℕ) (allowed : Bool) (s : SeizeState)
    (total_borrows account_borrow paid : ℕ) :
    tokens_to_seize false borrow_price collateral_price fx li repay =
      repay * (li * borrow_price / (collateral_price * fx / WAD)) / WAD ∧
    tokens_to_seize true borrow_price collateral_price fx li repay =
      repay * (li * WAD / (WAD * fx / WAD)) / WAD ∧
    (∀ s2 liquidator_tokens, seize_internal liquidator borrower allowed
        (tokens_to_seize false borrow_price collateral_price fx li repay) s =
          some (s2, liquidator_tokens) →
      s2.borrower_collateral_tokens = s.borrower_collateral_tokens -
        tokens_to_seize false borrow_price collateral_price fx li repay ∧
      tokens_to_seize false borrow_price collateral_price fx li repay ≤
        s.borrower_collateral_tokens) ∧
    (repay_borrow_amounts total_borrows account_borrow paid).1 ≤
      min total_borrows account_borrow ∧
    (0 < paid → 0 < min total_borrows account_borrow →
      (repay_borrow_amounts total_borrows account_borrow paid).1 <
        min total_borrows account_borrow) := by
  refine ⟨rfl, rfl, ?_, ?_, ?_⟩
  · intro s2 liquidator_tokens h
    unfold seize_internal at h
    dsimp only at h
    split_ifs at h with h1 h2 h3 h4
    all_goals first
      | exact Option.noConfusion h
      | (rw [Option.some.injEq, Prod.mk.injEq] at h
         rw [← h.1]
         exact ⟨rfl, by omega⟩)
  · unfold repay_borrow_amounts
    dsimp only
    split_ifs with h <;> omega
  · intro hpaid hdebt
    unfold repay_borrow_amounts
    dsimp only
    split_ifs with h <;> omega

/-- Witness for C3: scenario S4 — repaying 100 at `p_b = 1 WAD`,
`p_c = 2 WAD`, `fx = 1 WAD`, `li = 1.08 WAD` seizes 54 collateral tokens;
with `protocol_seize_share = 0.05 WAD` the liquidator receives 52, the
borrower's 100 collateral tokens drop by exactly 54, and a payment of 100
against a debt of 300 (total borrows 500) strictly decreases the debt. -/
theorem liquidation_seize_spec_witness :
    (⟨1000, 0, 2, 0, 0, 2, 998, WAD, 5 * 10 ^ 16, 25 * 10 ^ 16,
        46⟩ : SeizeState).borrower_collateral_tokens =
      (⟨1000, 0, 0, 0, 0, 0, 1000, WAD, 5 * 10 ^ 16, 25 * 10 ^ 16,
        100⟩ : SeizeState).borrower_collateral_tokens -
        tokens_to_seize false (10 ^ 18) (2 * 10 ^ 18) (10 ^ 18)
          (108 * 10 ^ 16) 100 ∧
    tokens_to_seize false (10 ^ 18) (2 * 10 ^ 18) (10 ^ 18) (108 * 10 ^ 16) 100
      ≤ 100 ∧
    (repay_borrow_amounts 500 300 100).1 < min 500 300 := by
  have h := liquidation_seize_spec (10 ^ 18) (2 * 10 ^ 18) (10 ^ 18)
    (108 * 10 ^ 16) 100 1 2 true
    ⟨1000, 0, 0, 0, 0, 0, 1000, WAD, 5 * 10 ^ 16, 25 * 10 ^ 16, 100⟩ 500 300 100
  have hseize := h.2.2.1
    ⟨1000, 0, 2, 0, 0, 2, 998, WAD, 5 * 10 ^ 16, 25 * 10 ^ 16, 46⟩ 52 (by decide)
  exact ⟨hseize.1, hseize.2, h.2.2.2.2 (by decide) (by decide)⟩

/-- C10: `seize_internal`, in both the money market and the USH market, reverts
whenever the borrower address equals the liquidator address, for every token
amount, controller answer and market state. -/
theorem seize_internal_rejects_self_liquidation (liquidator borrower : ℕ)
    (seize_allowed : Bool) (tokens : ℕ) (s : SeizeState) (su : UshSeizeState)
    (h : borrower = liquidator) :
    seize_internal liquidator borrower seize_allowed tokens s = none ∧
    ush_seize_internal liquidator borrower seize_allowed tokens su = none := by
  constructor
  · unfold seize_internal
    simp [h]
  · unfold ush_seize_internal
    simp [h]

/-- C1 counterexample: on scenario S1's inputs (`cash = 1000e18`,
`total_borrows = 500e18`, `reserve_factor = 0.1 WAD`, `stake_factor = 0.5 WAD`,
`borrow_rate = 1e9` per second, `dt = 86400`), the accrual produces
`delta_borrows = 4.32e16`, not the claimed `4.32e13`: the claimed expected
values are off by a factor of 1000. -/
theorem accrue_interest_s1_cex :
    (accrue_interest s1_rate 86400 s1_state).total_borrows
        = 500 * 10 ^ 18 + 432 * 10 ^ 14 ∧
    (accrue_interest s1_rate 86400 s1_state).total_borrows
        ≠ 500 * 10 ^ 18 + 432 * 10 ^ 11 ∧
    (accrue_interest s1_rate 86400 s1_state).total_reserves ≠ 432 * 10 ^ 10 ∧
    (accrue_interest s1_rate 86400 s1_state).staking_rewards ≠ 216 * 10 ^ 10 := by
  refine ⟨by decide, by decide, by decide, by decide⟩

/-- C1 (amended): `accrue_interest` at the stored timestamp leaves the state
unchanged; otherwise it applies exactly the claimed updates with
`dt = t - t_prev` and the borrow rate read on the stored borrows and
liquidity; on scenario S1's inputs it yields `delta_borrows = 4.32e16`,
`delta_reserves = 4.32e15`, `staking_rewards = revenue = 2.16e15` and
`borrow_index = 1.0000864e18`. -/
theorem accrue_interest_spec (rate_of : ℕ → ℕ → ℕ) (t : ℕ) (s : MoneyMarketState) :
    (t = s.accrual_timestamp → accrue_interest rate_of t s = s) ∧
    (t ≠ s.accrual_timestamp →
      accrue_interest rate_of t s = accrue_interest_result rate_of t s) ∧
    accrue_interest s1_rate 86400 s1_state =
      { s1_state with
        total_borrows := 500 * 10 ^ 18 + 432 * 10 ^ 14
        total_reserves := 432 * 10 ^ 13
        staking_rewards := 216 * 10 ^ 13
        historical_staking_rewards := 216 * 10 ^ 13
        revenue := 216 * 10 ^ 13
        borrow_index := 10000864 * 10 ^ 11
        accrual_timestamp := 86400 } := by
  refine ⟨fun h => by simp [accrue_interest, h], fun h => ?_, by decide⟩
  unfold accrue_interest accrue_interest_result
  simp only [h, if_neg, ite_false]
  congr 1
  omega

/-- Witness for C1: the idempotent branch at the stored timestamp `0`, and the
update branch at `t = 86400`, both on the S1 state. -/
theorem accrue_interest_spec_witness :
    accrue_interest s1_rate 0 s1_state = s1_state ∧
    accrue_interest s1_rate 86400 s1_state =
      accrue_interest_result s1_rate 86400 s1_state :=
  ⟨(accrue_interest_spec s1_rate 0 s1_state).1 rfl,
   (accrue_interest_spec s1_rate 86400 s1_state).2.1 (by decide)⟩

/-- Witness for C10: a self-seize of 5 tokens with the controller allowing the
seize and ample collateral still reverts, in both markets. -/
theorem seize_internal_rejects_self_liquidation_witness :
    seize_internal 7 7 true 5
        ⟨1000, 500, 0, 0, 0, 0, 800, WAD, WAD / 20, WAD / 4, 100⟩ = none ∧
    ush_seize_internal 7 7 true 5 ⟨0, 0, 0, 0, 800, WAD / 20, WAD / 4, 100⟩ = none :=
  seize_internal_rejects_self_liquidation 7 7 true 5
    ⟨1000, 500, 0, 0, 0, 0, 800, WAD, WAD / 20, WAD / 4, 100⟩
    ⟨0, 0, 0, 0, 800, WAD / 20, WAD / 4, 100⟩ rfl

end Hatom
